import Mathlib

/-!
Shallow embedding of the rate-limited concurrent execution core of the
repository: the sliding-window limiter (`SyncRateLimiter.waitForRateLimit`),
the token-bucket scheduler wrapper (`AsyncRateLimiter`), the retry utility
(`PromptUtils.retryParsingOperation` / `PromptUtils.isParsingError`) and the
batch coordinator (`AsyncRateLimiter.processItems`).

Timestamps and durations are embedded as `Int` (JS numbers used only through
comparison and subtraction here); counts as `Int` where the source stores a
JS number, `Nat` where the quantity is structurally a length.  `setTimeout`
is modelled as advancing an explicit clock by the (non-negative part of the)
requested delay.  Thrown JS values are modelled by `JSVal`.
-/

/-- Model of a thrown JavaScript value: whether it is an `instanceof Error`,
its `name` and `message`, and whether the Vercel-AI marker test
`NoObjectGeneratedError.isInstance` accepts it. -/
structure JSVal where
  isError : Bool
  name : String
  message : String
  isNoObjectGenerated : Bool
deriving DecidableEq, Repr

/-- `startsWithL needle hay`: the first list is an initial segment of the
second (character-by-character).  Used to embed JS `String.includes`. -/
def startsWithL : List Char → List Char → Bool
  | [], _ => true
  | _ :: _, [] => false
  | a :: as, b :: bs => a == b && startsWithL as bs

/-- `hasSubstr needle hay`: JS `hay.includes(needle)` on character lists. -/
def hasSubstr (needle : List Char) : List Char → Bool
  | [] => startsWithL needle []
  | c :: cs => startsWithL needle (c :: cs) || hasSubstr needle cs

/-- The `errorName` local of `PromptUtils.isParsingError`:
`error instanceof Error ? error.name : 'Unknown error'`. -/
def errorName (e : JSVal) : String :=
  if e.isError then e.name else "Unknown error"

/-- Embedding of `PromptUtils.isParsingError`: retryable iff the value is an
`Error` named `ZodError`, or satisfies `NoObjectGeneratedError.isInstance`,
or its reported name contains the substring `TimeoutError`. -/
def isParsingError (e : JSVal) : Bool :=
  (e.isError && e.name == "ZodError")
    || e.isNoObjectGenerated
    || hasSubstr "TimeoutError".data (errorName e).data

/-- The `new Error('Retry operation failed')` thrown after the loop of
`retryParsingOperation` (reachable only when `maxRetries = 0`). -/
def retryFallbackError : JSVal :=
  ⟨true, "Error", "Retry operation failed", false⟩

/-- Loop of `PromptUtils.retryParsingOperation`.  The operation is embedded
as `op : Nat → Except JSVal α`, giving the settled outcome of its `n`-th
invocation (`n` starting at 1, the source's `attempt` counter).  Returns the
overall outcome together with the number of invocations of `op`.  The first
argument of the recursion is `attempt`, the second the number of loop
iterations still permitted (`maxRetries - attempt + 1`). -/
def retryLoop (op : Nat → Except JSVal α) (retryOnlyParsingErrors : Bool)
    (maxRetries : Nat) : Nat → Nat → Except JSVal α × Nat
  | _attempt, 0 => (Except.error retryFallbackError, 0)
  | attempt, remaining + 1 =>
    match op attempt with
    | Except.ok v => (Except.ok v, 1)
    | Except.error e =>
      let shouldRetry := !retryOnlyParsingErrors || isParsingError e
      if !shouldRetry || attempt == maxRetries then
        (Except.error e, 1)
      else
        let r := retryLoop op retryOnlyParsingErrors maxRetries (attempt + 1) remaining
        (r.1, r.2 + 1)

/-- Embedding of `PromptUtils.retryParsingOperation`.  `delayMs` only feeds
a timer in the source and does not influence the settled outcome, so it is
carried but unused.  Returns the outcome and the invocation count. -/
def retryParsingOperation (op : Nat → Except JSVal α)
    (retryOnlyParsingErrors : Bool) (maxRetries : Nat) (_delayMs : Nat) :
    Except JSVal α × Nat :=
  retryLoop op retryOnlyParsingErrors maxRetries 1 maxRetries

example :
    @retryParsingOperation Unit (fun _ => Except.error ⟨true, "ZodError", "m", false⟩)
      true 3 10 =
    (Except.error ⟨true, "ZodError", "m", false⟩, 3) := by rfl

example :
    @retryParsingOperation Unit (fun _ => Except.error ⟨true, "RangeError", "m", false⟩)
      true 3 10 =
    (Except.error ⟨true, "RangeError", "m", false⟩, 1) := by rfl

example : isParsingError ⟨true, "APICallTimeoutError", "m", false⟩ = true := by decide
example : isParsingError ⟨false, "TimeoutError", "m", false⟩ = false := by decide

/-- Embedding of `syncRateLimiterConfig` (milliseconds / counts as `Int`). -/
structure syncRateLimiterConfig where
  minRequestInterval : Int
  rateLimitWindow : Int
  maxRequestsPerWindow : Int
  rateLimitResetBuffer : Int
deriving DecidableEq, Repr

/-- Mutable fields of `SyncRateLimiter`: the request-time log and the last
admission time (initially `[]` and `0`). -/
structure RateLimiterState where
  requestTimes : List Int
  lastRequestTime : Int
deriving DecidableEq, Repr

/-- Embedding of one call to `SyncRateLimiter.waitForRateLimit`, entered at
clock time `now`.  The two `setTimeout` suspensions advance the clock by the
non-negative part of the requested delay; the final `Date.now()` therefore
reads `now + wait1 + wait2`, which becomes the new `lastRequestTime` and the
appended log entry.  The read `this.requestTimes[0]` in the over-limit
branch is partial in JS (`undefined` on an empty array); the embedding
returns `none` exactly when that read would hit an empty array.  On success
it returns the new state together with the admission timestamp (the time at
which the call returns).

`admitAfter` is the common tail of the call (from the minimum-interval
check onwards), given the log left by the window check (`log1`) and the
clock advance `wait1` of the first suspension; `waitForRateLimit` is the
whole call. -/
def admitAfter (cfg : syncRateLimiterConfig) (st : RateLimiterState)
    (now : Int) (log1 : List Int) (wait1 : Int) : RateLimiterState × Int :=
  let timeSinceLastRequest := now - st.lastRequestTime
  let wait2 :=
    if timeSinceLastRequest < cfg.minRequestInterval then
      max (cfg.minRequestInterval - timeSinceLastRequest) 0
    else (0 : Int)
  let adm := now + wait1 + wait2
  (⟨log1 ++ [adm], adm⟩, adm)

def waitForRateLimit (cfg : syncRateLimiterConfig) (st : RateLimiterState)
    (now : Int) : Option (RateLimiterState × Int) :=
  let pruned := st.requestTimes.filter (fun t => now - t < cfg.rateLimitWindow)
  if (pruned.length : Int) ≥ cfg.maxRequestsPerWindow then
    match pruned.head? with
    | none => none
    | some oldestRequest =>
      some (admitAfter cfg st now []
        (max (cfg.rateLimitWindow - (now - oldestRequest) + cfg.rateLimitResetBuffer) 0))
  else
    some (admitAfter cfg st now pruned 0)

/-- A sequential single-lane run of the limiter: starting from state `st` at
clock `t`, each list entry `d` is the (non-negative) idle time between the
return of the previous call and the entry of the next one.  Returns the
final state and the list of admission timestamps. -/
def runLimiter (cfg : syncRateLimiterConfig) :
    RateLimiterState → Int → List Int → Option (RateLimiterState × List Int)
  | st, _, [] => some (st, [])
  | st, t, d :: ds => do
    let (st1, adm) ← waitForRateLimit cfg st (t + d)
    let (stf, adms) ← runLimiter cfg st1 adm ds
    some (stf, adm :: adms)

example :
    waitForRateLimit ⟨0, 100, 2, 0⟩ ⟨[0, 99], 99⟩ 99 =
      some (⟨[100], 100⟩, 100) := by decide

example :
    runLimiter ⟨0, 100, 2, 0⟩ ⟨[], 0⟩ 0 [0, 99, 0, 0] =
      some (⟨[100, 100], 100⟩, [0, 99, 100, 100]) := by decide

example :
    runLimiter ⟨50, 100, 1, 0⟩ ⟨[], 0⟩ 0 [0, 0] =
      some (⟨[200], 200⟩, [50, 200]) := by decide

/-- Embedding of `AsyncRateLimiterConfig` (`minTime` optional). -/
structure AsyncRateLimiterConfig where
  maxConcurrent : Int
  intervalCap : Int
  interval : Int
  minTime : Option Int
deriving DecidableEq, Repr

/-- The four `throw new Error(...)` checks of the `AsyncRateLimiter`
constructor, as an enumeration of which check fired. -/
inductive ConfigError where
  | maxConcurrentNotPositive
  | intervalCapBelowMaxConcurrent
  | intervalNotPositive
  | minTimeNotPositive
deriving DecidableEq, Repr

/-- Embedding of the validation sequence of the `AsyncRateLimiter`
constructor: the first violated check throws; otherwise construction
succeeds. -/
def validateAsyncConfig (c : AsyncRateLimiterConfig) : Except ConfigError Unit :=
  if c.maxConcurrent ≤ 0 then
    Except.error ConfigError.maxConcurrentNotPositive
  else if c.intervalCap < c.maxConcurrent then
    Except.error ConfigError.intervalCapBelowMaxConcurrent
  else if c.interval ≤ 0 then
    Except.error ConfigError.intervalNotPositive
  else
    match c.minTime with
    | some m =>
      if m ≤ 0 then Except.error ConfigError.minTimeNotPositive else Except.ok ()
    | none => Except.ok ()

/-- Embedding of `ProcessingError<T>`. -/
structure ProcessingError (T : Type) where
  item : T
  error : JSVal
deriving DecidableEq, Repr

/-- The wrap in `processItems`:
`result.reason instanceof Error ? result.reason : new Error('Unknown error')`. -/
def wrapReason (reason : JSVal) : JSVal :=
  if reason.isError then reason else ⟨true, "Error", "Unknown error", false⟩

/-- The body of the `reduce` of `processItems`, on one settled result
paired with its original item: push the value to `successful` on
fulfillment, `{item, error}` (with non-`Error` reasons wrapped) to `failed`
on rejection. -/
def settleStep (acc : List R × List (ProcessingError T))
    (p : Except JSVal R × T) : List R × List (ProcessingError T) :=
  match p.1 with
  | Except.ok v => (acc.1 ++ [v], acc.2)
  | Except.error reason => (acc.1, acc.2 ++ [⟨p.2, wrapReason reason⟩])

/-- Embedding of `AsyncRateLimiter.processItems`.  A processor is embedded
by the settled outcome of each item's scheduled operation
(`schedule` forwards the operation's own outcome unchanged).
`Promise.allSettled` yields the settled results aligned with the input
indices, embedded by zipping `items.map processor` with `items`; the
`reduce` pushes fulfilled values and `{item, error}` pairs in that index
order. -/
def processItems (items : List T) (processor : T → Except JSVal R) :
    List R × List (ProcessingError T) :=
  let results := items.map (fun item => processor item)
  (results.zip items).foldl settleStep ([], [])

/-- `schedule` instrumented with an invocation counter: it returns the
operation's settled outcome and bumps the counter. -/
def scheduleTracked (outcome : Except JSVal R) (n : Nat) : Except JSVal R × Nat :=
  (outcome, n + 1)

/-- The `items.map(item => this.schedule(() => processor(item)))` of
`processItems`, threading the `schedule` invocation counter. -/
def mapScheduleTracked (processor : T → Except JSVal R) :
    List T → Nat → List (Except JSVal R) × Nat
  | [], n => ([], n)
  | item :: rest, n =>
    let r := scheduleTracked (processor item) n
    let rs := mapScheduleTracked processor rest r.2
    (r.1 :: rs.1, rs.2)

/-- `processItems` instrumented with the number of `schedule` invocations it
performs (counter starting at 0). -/
def processItemsTracked (items : List T) (processor : T → Except JSVal R) :
    (List R × List (ProcessingError T)) × Nat :=
  let rs := mapScheduleTracked processor items 0
  ((rs.1.zip items).foldl settleStep ([], []), rs.2)

example :
    processItems [1, 2, 3]
      (fun n => if n = 2 then Except.error ⟨true, "E", "boom", false⟩ else Except.ok (10 * n)) =
    ([10, 30], [⟨2, ⟨true, "E", "boom", false⟩⟩]) := by decide

example :
    @processItemsTracked Nat Nat [] (fun n => Except.ok n) = (([], []), 0) := by decide

/-- `Promise.allSettled` with an explicit settlement schedule: starting from
an array of unsettled cells, each index of `order` (the sequence in which
the scheduled operations complete) writes its operation's settled outcome
into its own cell.  `results` is the index-aligned list of outcomes. -/
def settleAll (results : List γ) : List Nat → List (Option γ) → List (Option γ)
  | [], arr => arr
  | i :: rest, arr => settleAll results rest (arr.set i results[i]?)

/-- `AsyncRateLimiter.processItems` with the completion order of the
scheduled operations made explicit: the `reduce` of the source runs over
the array that `Promise.allSettled` delivers once every cell is settled
(an unsettled cell — impossible when `order` covers every index — is
skipped).  `settleStepOpt` is the body of that `reduce` on one cell. -/
def settleStepOpt (acc : List R × List (ProcessingError T))
    (p : Option (Except JSVal R) × T) : List R × List (ProcessingError T) :=
  match p.1 with
  | some (Except.ok v) => (acc.1 ++ [v], acc.2)
  | some (Except.error reason) => (acc.1, acc.2 ++ [⟨p.2, wrapReason reason⟩])
  | none => acc

def processItemsWithCompletion (items : List T) (processor : T → Except JSVal R)
    (order : List Nat) : List R × List (ProcessingError T) :=
  let results := items.map (fun item => processor item)
  let settled := settleAll results order (List.replicate items.length none)
  (settled.zip items).foldl settleStepOpt ([], [])

/-- Modelled from the spec: "order within each list follows completion
order (not necessarily submission order)" — the fulfilled values of a batch
listed in the order in which their operations complete (`order` is the
settlement sequence of indices).  This is the spec's claimed shape of
`successful`, to be compared with the implementation's. -/
def completionOrderSuccessful (items : List T) (processor : T → Except JSVal R)
    (order : List Nat) : List R :=
  order.filterMap (fun i => items[i]?.bind (fun it => (processor it).toOption))

example :
    processItemsWithCompletion [10, 20] (fun n => Except.ok n) [1, 0] =
      ([10, 20], []) := by decide

example :
    completionOrderSuccessful [10, 20] (fun n => Except.ok n) [1, 0] =
      [20, 10] := by decide

/-- Modelled from the spec: the dispatch state of the TokenBucketScheduler
(the Bottleneck engine behind `AsyncRateLimiter` is a package dependency,
not under the repository sources): queued jobs, operations in flight, the
reservoir token count, and the time of the previous dispatch. -/
structure SchedulerState where
  pending : Nat
  inFlight : Nat
  reservoir : Int
  lastDispatch : Int
deriving DecidableEq, Repr

/-- Events of the scheduler model: a job submission, a dispatch decision at
a given clock time, the settling of an in-flight operation, and the
periodic reservoir refresh. -/
inductive SchedEvent where
  | submit
  | dispatch (now : Int)
  | complete
  | refill
deriving DecidableEq, Repr

/-- Modelled from the spec: the effective minimum spacing between
dispatches — `minTime` when given, else `interval / intervalCap` rounded
up (the constructor's `Math.ceil` default). -/
def effectiveMinTime (c : AsyncRateLimiterConfig) : Int :=
  match c.minTime with
  | some m => m
  | none => (c.interval + c.intervalCap - 1) / c.intervalCap

/-- Modelled from the spec: one scheduler transition.  §4.2's dispatch rule
admits a queued operation only when fewer than `maxConcurrent` operations
are in flight, the reservoir holds at least one token, and `minTime` has
elapsed since the previous dispatch; dispatch decrements the reservoir,
completion only frees the concurrency slot, and the refresh restores the
reservoir to `intervalCap`. -/
def schedStep (c : AsyncRateLimiterConfig) (st : SchedulerState) :
    SchedEvent → SchedulerState
  | SchedEvent.submit => ⟨st.pending + 1, st.inFlight, st.reservoir, st.lastDispatch⟩
  | SchedEvent.dispatch now =>
    if 0 < st.pending ∧ (st.inFlight : Int) < c.maxConcurrent ∧ 1 ≤ st.reservoir
        ∧ effectiveMinTime c ≤ now - st.lastDispatch then
      ⟨st.pending - 1, st.inFlight + 1, st.reservoir - 1, now⟩
    else st
  | SchedEvent.complete => ⟨st.pending, st.inFlight - 1, st.reservoir, st.lastDispatch⟩
  | SchedEvent.refill => ⟨st.pending, st.inFlight, c.intervalCap, st.lastDispatch⟩

/-- Modelled from the spec: the scheduler's initial state — nothing queued
or in flight, a full reservoir, previous-dispatch time `t0`. -/
def schedInit (c : AsyncRateLimiterConfig) (t0 : Int) : SchedulerState :=
  ⟨0, 0, c.intervalCap, t0⟩

example :
    ([SchedEvent.submit, SchedEvent.submit, SchedEvent.submit,
      SchedEvent.dispatch 10, SchedEvent.dispatch 20, SchedEvent.dispatch 30,
      SchedEvent.complete].foldl (schedStep ⟨2, 4, 100, some 1⟩)
        (schedInit ⟨2, 4, 100, some 1⟩ 0)).inFlight = 1 := by decide

/-! ### Helper lemmas -/

lemma admitAfter_fst_requestTimes (cfg : syncRateLimiterConfig)
    (st : RateLimiterState) (now : Int) (log1 : List Int) (wait1 : Int) :
    (admitAfter cfg st now log1 wait1).1.requestTimes =
      log1 ++ [(admitAfter cfg st now log1 wait1).2] := rfl

lemma admitAfter_snd_sub_le (cfg : syncRateLimiterConfig)
    (st : RateLimiterState) (now : Int) (log1 : List Int) (wait1 : Int)
    (hlast : st.lastRequestTime ≤ now) (hmin : 0 ≤ cfg.minRequestInterval) :
    (admitAfter cfg st now log1 wait1).2 - now ≤ wait1 + cfg.minRequestInterval := by
  simp only [admitAfter]
  split
  · omega
  · omega

lemma waitForRateLimit_isSome (cfg : syncRateLimiterConfig)
    (st : RateLimiterState) (now : Int)
    (hk : 1 ≤ cfg.maxRequestsPerWindow) :
    (waitForRateLimit cfg st now).isSome = true := by
  simp only [waitForRateLimit]
  by_cases hge : ((st.requestTimes.filter
      (fun t => now - t < cfg.rateLimitWindow)).length : Int) ≥ cfg.maxRequestsPerWindow
  · cases hp : st.requestTimes.filter (fun t => now - t < cfg.rateLimitWindow) with
    | nil =>
      rw [hp] at hge
      simp at hge
      omega
    | cons a l => split <;> simp
  · simp [hge]

/-- The fulfilled values of a batch in input-index order. -/
def successfulOf (items : List T) (processor : T → Except JSVal R) : List R :=
  items.filterMap (fun it => (processor it).toOption)

/-- The `{item, error}` pairs of a batch in input-index order. -/
def failedOf (items : List T) (processor : T → Except JSVal R) :
    List (ProcessingError T) :=
  items.filterMap (fun it =>
    match processor it with
    | Except.error r => some ⟨it, wrapReason r⟩
    | Except.ok _ => none)

lemma foldl_settleStep_append (l : List (Except JSVal R × T)) :
    ∀ (a : List R) (b : List (ProcessingError T)),
      l.foldl settleStep (a, b) =
        (a ++ (l.foldl settleStep ([], [])).1, b ++ (l.foldl settleStep ([], [])).2) := by
  induction l with
  | nil => intro a b; simp
  | cons p l ih =>
    intro a b
    obtain ⟨r, it⟩ := p
    cases r with
    | ok v =>
      simp only [List.foldl_cons, settleStep]
      rw [ih (a ++ [v]) b, ih ([] ++ [v]) []]
      simp
    | error e =>
      simp only [List.foldl_cons, settleStep]
      rw [ih a (b ++ [ProcessingError.mk it (wrapReason e)]),
        ih [] ([] ++ [ProcessingError.mk it (wrapReason e)])]
      simp

lemma processItems_eq (items : List T) (processor : T → Except JSVal R) :
    processItems items processor =
      (successfulOf items processor, failedOf items processor) := by
  simp only [processItems]
  induction items with
  | nil => rfl
  | cons it items ih =>
    simp only [List.map_cons, List.zip_cons_cons, List.foldl_cons]
    cases h : processor it with
    | ok v =>
      simp only [settleStep, h]
      rw [foldl_settleStep_append _ ([] ++ [v]) [], ih]
      simp [successfulOf, failedOf, List.filterMap_cons, h, Except.toOption]
    | error e =>
      simp only [settleStep, h]
      rw [foldl_settleStep_append _ [] ([] ++ [ProcessingError.mk it (wrapReason e)]), ih]
      simp [successfulOf, failedOf, List.filterMap_cons, h, Except.toOption]

lemma successfulOf_failedOf_length (items : List T) (processor : T → Except JSVal R) :
    (successfulOf items processor).length + (failedOf items processor).length =
      items.length := by
  induction items with
  | nil => rfl
  | cons it items ih =>
    simp only [successfulOf, failedOf, Except.toOption] at ih
    cases h : processor it with
    | ok v =>
      simp only [successfulOf, failedOf, List.filterMap_cons, h, Except.toOption,
        List.length_cons]
      omega
    | error e =>
      simp only [successfulOf, failedOf, List.filterMap_cons, h, Except.toOption,
        List.length_cons]
      omega

lemma mapScheduleTracked_eq (processor : T → Except JSVal R) :
    ∀ (l : List T) (n : Nat),
      mapScheduleTracked processor l n = (l.map processor, n + l.length) := by
  intro l
  induction l with
  | nil => intro n; simp [mapScheduleTracked]
  | cons it l ih =>
    intro n
    simp [mapScheduleTracked, scheduleTracked, ih (n + 1)]
    omega

lemma waitForRateLimit_log_length_le (cfg : syncRateLimiterConfig)
    (st st' : RateLimiterState) (now adm : Int)
    (hk : 1 ≤ cfg.maxRequestsPerWindow)
    (heq : waitForRateLimit cfg st now = some (st', adm)) :
    (st'.requestTimes.length : Int) ≤ cfg.maxRequestsPerWindow := by
  simp only [waitForRateLimit] at heq
  split at heq
  · next hge =>
    cases hp : st.requestTimes.filter (fun t => now - t < cfg.rateLimitWindow) with
    | nil =>
      rw [hp] at heq
      simp at heq
    | cons a l =>
      rw [hp] at heq
      simp only [List.head?_cons, Option.some.injEq] at heq
      obtain ⟨h1, h2⟩ := Prod.ext_iff.mp heq
      dsimp only at h1 h2
      rw [← h1, admitAfter_fst_requestTimes]
      simpa using hk
  · next hge =>
    simp only [Option.some.injEq] at heq
    obtain ⟨h1, h2⟩ := Prod.ext_iff.mp heq
    dsimp only at h1 h2
    rw [← h1, admitAfter_fst_requestTimes]
    simp only [List.length_append, List.length_singleton]
    push_cast
    omega

lemma waitForRateLimit_adm_sub_le (cfg : syncRateLimiterConfig)
    (st st' : RateLimiterState) (now adm : Int)
    (hW : 0 ≤ cfg.rateLimitWindow) (hB : 0 ≤ cfg.rateLimitResetBuffer)
    (hI : 0 ≤ cfg.minRequestInterval)
    (hlog : ∀ t ∈ st.requestTimes, t ≤ now)
    (hlast : st.lastRequestTime ≤ now)
    (heq : waitForRateLimit cfg st now = some (st', adm)) :
    adm - now ≤ cfg.rateLimitWindow + cfg.rateLimitResetBuffer + cfg.minRequestInterval := by
  simp only [waitForRateLimit] at heq
  split at heq
  · next hge =>
    cases hp : st.requestTimes.filter (fun t => now - t < cfg.rateLimitWindow) with
    | nil =>
      rw [hp] at heq
      simp at heq
    | cons a l =>
      rw [hp] at heq
      simp only [List.head?_cons, Option.some.injEq] at heq
      obtain ⟨h1, h2⟩ := Prod.ext_iff.mp heq
      dsimp only at h1 h2
      have ha : a ≤ now := by
        have hmem : a ∈ st.requestTimes.filter (fun t => now - t < cfg.rateLimitWindow) := by
          rw [hp]; exact List.mem_cons_self a l
        exact hlog a (List.mem_filter.mp hmem).1
      have hb := admitAfter_snd_sub_le cfg st now []
        (max (cfg.rateLimitWindow - (now - a) + cfg.rateLimitResetBuffer) 0) hlast hI
      rw [h2] at hb
      omega
  · next hge =>
    simp only [Option.some.injEq] at heq
    obtain ⟨h1, h2⟩ := Prod.ext_iff.mp heq
    dsimp only at h1 h2
    have hb := admitAfter_snd_sub_le cfg st now
      (st.requestTimes.filter (fun t => now - t < cfg.rateLimitWindow)) 0 hlast hI
    rw [h2] at hb
    omega

lemma schedStep_inFlight_le (c : AsyncRateLimiterConfig) (st : SchedulerState)
    (ev : SchedEvent) (h : (st.inFlight : Int) ≤ c.maxConcurrent) :
    ((schedStep c st ev).inFlight : Int) ≤ c.maxConcurrent := by
  cases ev with
  | submit => simpa [schedStep] using h
  | complete =>
    simp only [schedStep]
    omega
  | refill => simpa [schedStep] using h
  | dispatch now =>
    simp only [schedStep]
    split
    · next hcond =>
      obtain ⟨_, h2, _, _⟩ := hcond
      push_cast
      omega
    · exact h

lemma schedRun_inFlight_le (c : AsyncRateLimiterConfig) (events : List SchedEvent) :
    ∀ st : SchedulerState, (st.inFlight : Int) ≤ c.maxConcurrent →
      ((events.foldl (schedStep c) st).inFlight : Int) ≤ c.maxConcurrent := by
  induction events with
  | nil => intro st h; simpa using h
  | cons ev events ih =>
    intro st h
    simpa [List.foldl_cons] using ih (schedStep c st ev) (schedStep_inFlight_le c st ev h)

lemma processItemsTracked_eq (items : List T) (processor : T → Except JSVal R) :
    processItemsTracked items processor = (processItems items processor, items.length) := by
  simp [processItemsTracked, processItems, mapScheduleTracked_eq]

lemma settleAll_length (results : List γ) :
    ∀ (order : List Nat) (arr : List (Option γ)),
      (settleAll results order arr).length = arr.length := by
  intro order
  induction order with
  | nil => intro arr; rfl
  | cons i rest ih => intro arr; simp [settleAll, ih, List.length_set]

lemma settleAll_getElem?_of_not_mem (results : List γ) :
    ∀ (order : List Nat) (arr : List (Option γ)) (j : Nat), j ∉ order →
      (settleAll results order arr)[j]? = arr[j]? := by
  intro order
  induction order with
  | nil => intro arr j _; rfl
  | cons i rest ih =>
    intro arr j hj
    have hij : i ≠ j := fun h => hj (by simp [h])
    have hrest : j ∉ rest := fun h => hj (by simp [h])
    simp [settleAll, ih _ j hrest, List.getElem?_set_ne hij]

lemma settleAll_getElem?_of_mem (results : List γ) :
    ∀ (order : List Nat) (arr : List (Option γ)) (j : Nat), j ∈ order →
      j < arr.length → (settleAll results order arr)[j]? = some results[j]? := by
  intro order
  induction order with
  | nil => intro arr j hj _; simp at hj
  | cons i rest ih =>
    intro arr j hj hlen
    by_cases hrest : j ∈ rest
    · simpa [settleAll] using ih (arr.set i results[i]?) j hrest (by simpa using hlen)
    · have hij : i = j := by
        rcases List.mem_cons.mp hj with h | h
        · exact h.symm
        · exact absurd h hrest
      subst hij
      rw [show settleAll results (i :: rest) arr =
          settleAll results rest (arr.set i results[i]?) from rfl]
      rw [settleAll_getElem?_of_not_mem results rest _ i hrest]
      exact List.getElem?_set_self hlen

lemma settleAll_covers (results : List γ) (order : List Nat)
    (h : ∀ j, j < results.length → j ∈ order) :
    settleAll results order (List.replicate results.length none) =
      results.map some := by
  apply List.ext_getElem?
  intro j
  by_cases hj : j < results.length
  · rw [settleAll_getElem?_of_mem results order _ j (h j hj) (by simpa using hj)]
    simp [List.getElem?_eq_getElem hj]
  · have h1 : (settleAll results order (List.replicate results.length none)).length ≤ j := by
      rw [settleAll_length]
      simpa using Nat.le_of_not_lt hj
    rw [List.getElem?_eq_none h1, List.getElem?_eq_none (by simpa using Nat.le_of_not_lt hj)]

lemma foldl_settleStepOpt_map_some (l : List (Except JSVal R × T))
    (init : List R × List (ProcessingError T)) :
    (l.map (fun p => ((some p.1 : Option (Except JSVal R)), p.2))).foldl
        settleStepOpt init = l.foldl settleStep init := by
  rw [List.foldl_map]
  have hfun : (fun (acc : List R × List (ProcessingError T)) (p : Except JSVal R × T) =>
      settleStepOpt acc ((some p.1 : Option (Except JSVal R)), p.2)) = settleStep := by
    funext acc p
    obtain ⟨r, it⟩ := p
    cases r <;> rfl
  rw [hfun]

lemma processItemsWithCompletion_eq (items : List T)
    (processor : T → Except JSVal R) (order : List Nat)
    (h : ∀ j, j < items.length → j ∈ order) :
    processItemsWithCompletion items processor order = processItems items processor := by
  simp only [processItemsWithCompletion, processItems]
  have hlen : (items.map (fun item => processor item)).length = items.length :=
    List.length_map _ _
  rw [show List.replicate items.length (none : Option (Except JSVal R)) =
      List.replicate (items.map (fun item => processor item)).length none by rw [hlen]]
  rw [settleAll_covers _ order (by rw [hlen]; exact h)]
  rw [List.zip_map_left]
  have := foldl_settleStepOpt_map_some
    ((items.map (fun item => processor item)).zip items)
    (([] : List R), ([] : List (ProcessingError T)))
  rw [← this]
  rfl

/-! ### Claims -/

/-- Claim C1: for every admission performed by a `SlidingWindowLimiter`
(`SyncRateLimiter.waitForRateLimit`) configured with
`maxRequestsPerWindow = k ≥ 1`, the admission timestamps retained under the
pruning / clear-the-log semantics of the algorithm never number more than
`k`: after any call, from any state, the request log holds at most `k`
timestamps, and hence any trailing window of length `rateLimitWindow`
(evaluated at any time `tWin` over the retained log) contains at most `k`
admissions. -/
theorem claim_C1_sliding_window_bound
    (cfg : syncRateLimiterConfig) (st st' : RateLimiterState) (now adm tWin : Int)
    (hk : 1 ≤ cfg.maxRequestsPerWindow)
    (heq : waitForRateLimit cfg st now = some (st', adm)) :
    (st'.requestTimes.length : Int) ≤ cfg.maxRequestsPerWindow ∧
    ((st'.requestTimes.filter (fun t => tWin - t < cfg.rateLimitWindow)).length : Int) ≤
      cfg.maxRequestsPerWindow := by
  have h := waitForRateLimit_log_length_le cfg st st' now adm hk heq
  refine ⟨h, le_trans ?_ h⟩
  exact_mod_cast List.length_filter_le _ _

/-- Witness for C1 at a concrete over-limit call. -/
theorem claim_C1_sliding_window_bound_witness :
    ((( ⟨[100], 100⟩ : RateLimiterState).requestTimes.length : Int) ≤ 2 ∧
      ((( ⟨[100], 100⟩ : RateLimiterState).requestTimes.filter
        (fun t => 100 - t < 100)).length : Int) ≤ 2) :=
  claim_C1_sliding_window_bound ⟨0, 100, 2, 0⟩ ⟨[0, 99], 99⟩ ⟨[100], 100⟩ 99 100 100
    (by decide) (by decide)

/-- Claim C2: `processItems` partitions every input into exactly one of the
two output lists (`successful.length + failed.length = items.length`); the
two lists are exactly the fulfilled values and the `{item, error}` pairs of
the rejected items in input order, the error of each failed entry being the
processor's own rejection reason, with a non-`Error` reason wrapped into
the generic `Error('Unknown error')` (see `failedOf` and `wrapReason`). -/
theorem claim_C2_processItems_partition (T R : Type) (items : List T)
    (processor : T → Except JSVal R) :
    (processItems items processor).1.length + (processItems items processor).2.length
        = items.length ∧
    (processItems items processor).1 = successfulOf items processor ∧
    (processItems items processor).2 = failedOf items processor := by
  rw [processItems_eq]
  exact ⟨successfulOf_failedOf_length items processor, rfl, rfl⟩

/-- Counterexample to Claim C3 as stated: in a real run of the limiter
(config: `minRequestInterval = 50`, `rateLimitWindow = 100`,
`maxRequestsPerWindow = 1`, `resetBuffer = 0`) the second call enters at
time 50 and returns at time 200, a total suspension of 150, strictly more
than `rateLimitWindow + resetBuffer = 100`: the minimum-interval wait is
computed from the stale entry-time `now` and is added on top of the
window wait. -/
theorem claim_C3_wait_bound_counterexample :
    runLimiter ⟨50, 100, 1, 0⟩ ⟨[], 0⟩ 0 [0, 0] = some (⟨[200], 200⟩, [50, 200]) ∧
    waitForRateLimit ⟨50, 100, 1, 0⟩ ⟨[50], 50⟩ 50 = some (⟨[200], 200⟩, 200) ∧
    ¬((200 : Int) - 50 ≤ 100 + 0) := by decide

/-- Claim C3 (amended): every call to `waitForRateLimit` returns without
error (given `maxRequestsPerWindow ≥ 1`), and the total suspension incurred
by a call is bounded by
`rateLimitWindow + resetBuffer + minRequestInterval`. -/
theorem claim_C3_returns_with_bounded_wait
    (cfg : syncRateLimiterConfig) (st st' : RateLimiterState) (now adm : Int)
    (hk : 1 ≤ cfg.maxRequestsPerWindow)
    (hW : 0 ≤ cfg.rateLimitWindow) (hB : 0 ≤ cfg.rateLimitResetBuffer)
    (hI : 0 ≤ cfg.minRequestInterval)
    (hlog : ∀ t ∈ st.requestTimes, t ≤ now)
    (hlast : st.lastRequestTime ≤ now)
    (heq : waitForRateLimit cfg st now = some (st', adm)) :
    adm - now ≤ cfg.rateLimitWindow + cfg.rateLimitResetBuffer + cfg.minRequestInterval ∧
    (waitForRateLimit cfg st now).isSome = true :=
  ⟨waitForRateLimit_adm_sub_le cfg st st' now adm hW hB hI hlog hlast heq,
    waitForRateLimit_isSome cfg st now hk⟩

/-- Witness for the amended C3 at a concrete call. -/
theorem claim_C3_returns_with_bounded_wait_witness :
    (50 : Int) - 0 ≤ 100 + 0 + 50 ∧
    (waitForRateLimit ⟨50, 100, 1, 0⟩ ⟨[], 0⟩ 0).isSome = true :=
  claim_C3_returns_with_bounded_wait ⟨50, 100, 1, 0⟩ ⟨[], 0⟩ ⟨[50], 50⟩ 0 50
    (by decide) (by decide) (by decide) (by decide) (by decide) (by decide) (by decide)

/-- Counterexample to Claim C4 as stated: with items `[10, 20]`, an
always-succeeding identity processor, and completion order `[1, 0]` (the
second item's operation completes first), `processItems` returns
`successful = [10, 20]` — the submission (index) order delivered by
`Promise.allSettled` — whereas the completion order of the fulfilled values
is `[20, 10]`. -/
theorem claim_C4_completion_order_counterexample :
    (processItemsWithCompletion [10, 20]
        (fun n => (Except.ok n : Except JSVal Nat)) [1, 0]).1 = [10, 20] ∧
    completionOrderSuccessful [10, 20]
        (fun n => (Except.ok n : Except JSVal Nat)) [1, 0] = [20, 10] ∧
    (processItemsWithCompletion [10, 20]
        (fun n => (Except.ok n : Except JSVal Nat)) [1, 0]).1 ≠
      completionOrderSuccessful [10, 20]
        (fun n => (Except.ok n : Except JSVal Nat)) [1, 0] := by decide

/-- Claim C4 (amended): the order of entries within `successful` and within
`failed` follows submission (input index) order, independently of the
completion order of the scheduled operations: for any settlement sequence
covering every index, the result equals `processItems`, whose lists are the
fulfilled values and rejection pairs in input order; in particular for
items `[1,2,3]` with a processor throwing only for item 2,
`successful = [f 1, f 3]` and `failed = [{item: 2, error: E}]` (witness). -/
theorem claim_C4_submission_order (T R : Type) (items : List T)
    (processor : T → Except JSVal R) (order : List Nat)
    (horder : ∀ j, j < items.length → j ∈ order) :
    processItemsWithCompletion items processor order = processItems items processor ∧
    (processItems items processor).1 = successfulOf items processor ∧
    (processItems items processor).2 = failedOf items processor := by
  refine ⟨processItemsWithCompletion_eq items processor order horder, ?_, ?_⟩ <;>
    rw [processItems_eq]

/-- Witness for the amended C4 at the claim's concrete example (processor
throwing only for item 2, completion order `[2, 0, 1]`). -/
theorem claim_C4_submission_order_witness :
    (processItemsWithCompletion [1, 2, 3]
        (fun n => if n = 2 then Except.error ⟨true, "E", "boom", false⟩
          else Except.ok (10 * n)) [2, 0, 1] =
      processItems [1, 2, 3]
        (fun n => if n = 2 then Except.error ⟨true, "E", "boom", false⟩
          else Except.ok (10 * n)) ∧
    (processItems [1, 2, 3]
        (fun n => if n = 2 then Except.error ⟨true, "E", "boom", false⟩
          else Except.ok (10 * n))).1 =
      successfulOf [1, 2, 3]
        (fun n => if n = 2 then Except.error ⟨true, "E", "boom", false⟩
          else Except.ok (10 * n)) ∧
    (processItems [1, 2, 3]
        (fun n => if n = 2 then Except.error ⟨true, "E", "boom", false⟩
          else Except.ok (10 * n))).2 =
      failedOf [1, 2, 3]
        (fun n => if n = 2 then Except.error ⟨true, "E", "boom", false⟩
          else Except.ok (10 * n))) ∧
    processItems [1, 2, 3]
        (fun n => if n = 2 then Except.error ⟨true, "E", "boom", false⟩
          else Except.ok (10 * n)) =
      ([10, 30], [⟨2, ⟨true, "E", "boom", false⟩⟩]) :=
  ⟨claim_C4_submission_order Nat Nat [1, 2, 3]
      (fun n => if n = 2 then Except.error ⟨true, "E", "boom", false⟩
        else Except.ok (10 * n)) [2, 0, 1] (by decide),
    by decide⟩

/-- Claim C5: for an operation that throws a retryable (classified) error
on every attempt, `retryParsingOperation(op, true, 3, delayMs)` invokes the
operation exactly 3 times and re-raises the error of the last (third)
attempt unchanged. -/
theorem claim_C5_retry_exhausts (α : Type) (op : Nat → Except JSVal α)
    (errs : Nat → JSVal) (d : Nat)
    (hop : ∀ n, op n = Except.error (errs n))
    (hretry : ∀ n, isParsingError (errs n) = true) :
    retryParsingOperation op true 3 d = (Except.error (errs 3), 3) := by
  simp [retryParsingOperation, retryLoop, hop, hretry]

/-- Witness for C5: an operation always throwing a `ZodError`. -/
theorem claim_C5_retry_exhausts_witness :
    @retryParsingOperation Unit
        (fun _ => Except.error ⟨true, "ZodError", "m", false⟩) true 3 10 =
      (Except.error ⟨true, "ZodError", "m", false⟩, 3) :=
  claim_C5_retry_exhausts Unit
    (fun _ => Except.error ⟨true, "ZodError", "m", false⟩)
    (fun _ => ⟨true, "ZodError", "m", false⟩) 10 (fun _ => rfl) (fun _ => rfl)

/-- Claim C6: with retry restricted to parsing errors, an operation whose
first invocation throws an error that is not a `ZodError`, not a
"no structured object produced" failure, and whose reported name does not
contain the timeout substring, is invoked exactly once and that same error
is propagated. -/
theorem claim_C6_nonretryable_short_circuit (α : Type) (op : Nat → Except JSVal α)
    (e : JSVal) (m d : Nat)
    (hm : 1 ≤ m)
    (hop : op 1 = Except.error e)
    (hz : (e.isError && e.name == "ZodError") = false)
    (hn : e.isNoObjectGenerated = false)
    (ht : hasSubstr "TimeoutError".data (errorName e).data = false) :
    retryParsingOperation op true m d = (Except.error e, 1) := by
  have hpe : isParsingError e = false := by
    simp [isParsingError, hz, hn, ht]
  obtain ⟨r, rfl⟩ : ∃ r, m = r + 1 := ⟨m - 1, by omega⟩
  simp [retryParsingOperation, retryLoop, hop, hpe]

/-- Witness for C6: a `RangeError` thrown on the first call. -/
theorem claim_C6_nonretryable_short_circuit_witness :
    @retryParsingOperation Unit
        (fun _ => Except.error ⟨true, "RangeError", "m", false⟩) true 3 10 =
      (Except.error ⟨true, "RangeError", "m", false⟩, 1) :=
  claim_C6_nonretryable_short_circuit Unit
    (fun _ => Except.error ⟨true, "RangeError", "m", false⟩)
    ⟨true, "RangeError", "m", false⟩ 3 10 (by decide) rfl (by decide) (by decide)
    (by decide)

/-- Claim C7: construction of the `AsyncRateLimiter` raises a synchronous
configuration error if and only if the configuration violates one of
`maxConcurrent > 0`, `intervalCap ≥ maxConcurrent`, `interval > 0`, and
(when `minTime` is given) `minTime > 0`; in particular every configuration
with `intervalCap < maxConcurrent` fails construction. -/
theorem claim_C7_constructor_validation (c : AsyncRateLimiterConfig) :
    ((validateAsyncConfig c = Except.ok ()) ↔
      (0 < c.maxConcurrent ∧ c.maxConcurrent ≤ c.intervalCap ∧ 0 < c.interval ∧
        ∀ m, c.minTime = some m → 0 < m)) ∧
    (c.intervalCap < c.maxConcurrent → validateAsyncConfig c ≠ Except.ok ()) := by
  constructor
  · constructor
    · intro h
      unfold validateAsyncConfig at h
      split_ifs at h with h1 h2 h3
      refine ⟨by omega, by omega, by omega, fun m hm2 => ?_⟩
      simp only [hm2] at h
      split_ifs at h with h4
      omega
    · rintro ⟨h1, h2, h3, h4⟩
      unfold validateAsyncConfig
      rw [if_neg (by omega), if_neg (by omega), if_neg (by omega)]
      cases hm : c.minTime with
      | none => rfl
      | some m =>
        have := h4 m hm
        simp only
        rw [if_neg (by omega)]
  · intro hlt h
    unfold validateAsyncConfig at h
    split_ifs at h

/-- Claim C8: for every processor, the batch routine applied to the empty
input list returns `{successful: [], failed: []}` and never invokes
`schedule` (the instrumented invocation counter stays 0). -/
theorem claim_C8_empty_batch (T R : Type) (processor : T → Except JSVal R) :
    processItemsTracked ([] : List T) processor = (([], []), 0) ∧
    processItems ([] : List T) processor = ([], []) :=
  ⟨rfl, rfl⟩

/-- Claim C9 (scheduler modelled from the spec, the Bottleneck dispatch
engine being an external package): for every sequence of scheduler events
starting from the initial state of a configuration with
`maxConcurrent = c > 0`, at no point are more than `c` operations
simultaneously in flight. -/
theorem claim_C9_concurrency_bound (c : AsyncRateLimiterConfig)
    (events : List SchedEvent) (t0 : Int) (hc : 0 < c.maxConcurrent) :
    ((events.foldl (schedStep c) (schedInit c t0)).inFlight : Int) ≤ c.maxConcurrent := by
  apply schedRun_inFlight_le
  simp only [schedInit]
  push_cast
  omega

/-- Witness for C9 at a concrete configuration and event trace. -/
theorem claim_C9_concurrency_bound_witness :
    ((([SchedEvent.submit, SchedEvent.submit, SchedEvent.submit,
        SchedEvent.dispatch 10, SchedEvent.dispatch 20, SchedEvent.dispatch 30,
        SchedEvent.complete, SchedEvent.refill].foldl
          (schedStep ⟨2, 4, 1000, some 5⟩)
          (schedInit ⟨2, 4, 1000, some 5⟩ 0)).inFlight : Int) ≤ 2) :=
  claim_C9_concurrency_bound ⟨2, 4, 1000, some 5⟩
    [SchedEvent.submit, SchedEvent.submit, SchedEvent.submit,
      SchedEvent.dispatch 10, SchedEvent.dispatch 20, SchedEvent.dispatch 30,
      SchedEvent.complete, SchedEvent.refill] 0 (by decide)

/-- Claim C10: under the data-model precondition `maxRequestsPerWindow ≥ 1`,
whenever the over-limit branch of `waitForRateLimit` is entered (the pruned
log has reached `maxRequestsPerWindow`), the pruned log is non-empty, so
the read of `requestTimes[0]` is defined — the embedding, which returns
`none` exactly when that read would hit an empty array, always returns
`some`. -/
theorem claim_C10_oldest_read_defined (cfg : syncRateLimiterConfig)
    (st : RateLimiterState) (now : Int)
    (hk : 1 ≤ cfg.maxRequestsPerWindow)
    (hbranch : ((st.requestTimes.filter
        (fun t => now - t < cfg.rateLimitWindow)).length : Int) ≥
      cfg.maxRequestsPerWindow) :
    st.requestTimes.filter (fun t => now - t < cfg.rateLimitWindow) ≠ [] ∧
    (waitForRateLimit cfg st now).isSome = true := by
  constructor
  · intro hnil
    rw [hnil] at hbranch
    simp at hbranch
    omega
  · exact waitForRateLimit_isSome cfg st now hk

/-- Witness for C10 at a concrete over-limit state. -/
theorem claim_C10_oldest_read_defined_witness :
    ([50] : List Int).filter (fun t => 50 - t < 100) ≠ [] ∧
    (waitForRateLimit ⟨0, 100, 1, 0⟩ ⟨[50], 50⟩ 50).isSome = true :=
  claim_C10_oldest_read_defined ⟨0, 100, 1, 0⟩ ⟨[50], 50⟩ 50 (by decide) (by decide)
